import Mathlib

/-!
# Verification of the Airtable → Postgres migration pipeline

A shallow embedding of `src/migrate.py` and proofs of the specification's
claims about it.

Conventions of the embedding:
* Python `None` / JSON null is `Value.null`; scalar payloads are `Value.str`
  and `Value.num`.
* Python dicts that are built by key insertion are modelled as association
  lists with dict-insert semantics (`dictInsert`): an existing key is updated
  in place, a new key is appended, matching CPython's insertion-ordered dicts.
* `str.lower()` and the regex class `[A-Z]` act on ASCII letters here, which
  is the alphabet the configuration's table names draw from.
* The network is modelled as the list of responses the source store returns
  to successive requests; the database is an explicit state threaded through
  each operation, with per-call transaction (commit/rollback) semantics.
-/

/-- A scalar value as it appears in an Airtable record / Postgres cell.
`null` is Python's `None`. -/
inductive Value where
  | null : Value
  | str : String → Value
  | num : Int → Value
deriving DecidableEq, Repr

/-! ## NameNormalizer: `to_snake_case` (migrate.py lines 32–35)

```python
def to_snake_case(name):
    name_no_spaces = name.replace(' ', '')
    return re.sub(r'(?<!^)(?=[A-Z])', '_', name_no_spaces).lower()
```
-/

/-- Membership of the regex character class `[A-Z]` (ASCII uppercase). -/
def isUpperAscii (c : Char) : Bool :=
  65 ≤ c.toNat && c.toNat ≤ 90

/-- Python `str.lower()` on one character (ASCII range, see module header). -/
def lowerChar (c : Char) : Char :=
  if isUpperAscii c then Char.ofNat (c.toNat + 32) else c

/-- `name.replace(' ', '')`: delete every space character. -/
def removeSpaces (l : List Char) : List Char :=
  l.filter (fun c => c != ' ')

/-- Tail part of the regex substitution: every uppercase letter in the tail
gets an underscore inserted before it. -/
def insertSepsAux : List Char → List Char
  | [] => []
  | c :: rest => (if isUpperAscii c then ['_', c] else [c]) ++ insertSepsAux rest

/-- `re.sub(r'(?<!^)(?=[A-Z])', '_', s)`: insert `_` before each uppercase
letter that is not at the start of the string. -/
def insertSeps : List Char → List Char
  | [] => []
  | c :: rest => c :: insertSepsAux rest

/-- `to_snake_case` from migrate.py: remove spaces, separate internal
uppercase letters with `_`, lowercase everything. -/
def to_snake_case (s : String) : String :=
  ⟨(insertSeps (removeSpaces s.data)).map lowerChar⟩

example : to_snake_case "Customer Orders" = "customer_orders" := by decide
example : to_snake_case "ID" = "i_d" := by decide
example : to_snake_case "already_snake" = "already_snake" := by decide

/-! ### Idempotence of `to_snake_case` -/

theorem char_toNat_ofNat (n : Nat) (h : n.isValidChar) : (Char.ofNat n).toNat = n := by
  rw [Char.ofNat, dif_pos h]
  rfl

theorem isUpperAscii_lowerChar (c : Char) : isUpperAscii (lowerChar c) = false := by
  unfold lowerChar
  by_cases hu : isUpperAscii c
  · simp only [if_pos hu]
    simp only [isUpperAscii, Bool.and_eq_true, decide_eq_true_eq] at hu
    have hv : (c.toNat + 32).isValidChar := Or.inl (by omega)
    have key := char_toNat_ofNat _ hv
    simp only [isUpperAscii, key, Bool.and_eq_false_iff, decide_eq_false_iff_not]
    omega
  · simp only [if_neg hu]
    exact Bool.eq_false_iff.mpr hu

theorem lowerChar_ne_space (c : Char) (h : c ≠ ' ') : lowerChar c ≠ ' ' := by
  unfold lowerChar
  by_cases hu : isUpperAscii c
  · simp only [if_pos hu]
    simp only [isUpperAscii, Bool.and_eq_true, decide_eq_true_eq] at hu
    have hv : (c.toNat + 32).isValidChar := Or.inl (by omega)
    intro heq
    have h32 := char_toNat_ofNat _ hv
    rw [heq] at h32
    have hsp : (' ' : Char).toNat = 32 := rfl
    omega
  · simpa only [if_neg hu] using h

theorem lowerChar_of_not_upper (c : Char) (h : isUpperAscii c = false) :
    lowerChar c = c := by
  unfold lowerChar
  simp [h]

theorem mem_insertSepsAux {c : Char} {l : List Char} (h : c ∈ insertSepsAux l) :
    c = '_' ∨ c ∈ l := by
  induction l with
  | nil => simp [insertSepsAux] at h
  | cons d rest ih =>
    simp only [insertSepsAux, List.mem_append] at h
    rcases h with h | h
    · by_cases hu : isUpperAscii d
      · simp [hu] at h
        rcases h with h | h
        · exact Or.inl h
        · exact Or.inr (by simp [h])
      · simp [hu] at h
        exact Or.inr (by simp [h])
    · rcases ih h with h | h
      · exact Or.inl h
      · exact Or.inr (List.mem_cons_of_mem _ h)

theorem mem_insertSeps {c : Char} {l : List Char} (h : c ∈ insertSeps l) :
    c = '_' ∨ c ∈ l := by
  cases l with
  | nil => simp [insertSeps] at h
  | cons d rest =>
    simp only [insertSeps, List.mem_cons] at h
    rcases h with h | h
    · exact Or.inr (by simp [h])
    · rcases mem_insertSepsAux h with h | h
      · exact Or.inl h
      · exact Or.inr (List.mem_cons_of_mem _ h)

theorem insertSepsAux_eq_self {l : List Char}
    (h : ∀ c ∈ l, isUpperAscii c = false) : insertSepsAux l = l := by
  induction l with
  | nil => rfl
  | cons d rest ih =>
    have hd : isUpperAscii d = false := h d (List.mem_cons_self d rest)
    rw [insertSepsAux, if_neg (by simp [hd])]
    simp only [List.singleton_append, List.cons.injEq, true_and]
    exact ih fun c hc => h c (List.mem_cons_of_mem _ hc)

theorem insertSeps_eq_self {l : List Char}
    (h : ∀ c ∈ l, isUpperAscii c = false) : insertSeps l = l := by
  cases l with
  | nil => rfl
  | cons d rest =>
    simp only [insertSeps, List.cons.injEq, true_and]
    exact insertSepsAux_eq_self fun c hc => h c (List.mem_cons_of_mem _ hc)

theorem map_lowerChar_eq_self {l : List Char}
    (h : ∀ c ∈ l, isUpperAscii c = false) : l.map lowerChar = l := by
  induction l with
  | nil => rfl
  | cons d rest ih =>
    simp only [List.map_cons, List.cons.injEq]
    exact ⟨lowerChar_of_not_upper d (h d (List.mem_cons_self d rest)),
      ih fun c hc => h c (List.mem_cons_of_mem _ hc)⟩

theorem removeSpaces_eq_self {l : List Char}
    (h : ∀ c ∈ l, c ≠ ' ') : removeSpaces l = l := by
  unfold removeSpaces
  rw [List.filter_eq_self]
  intro c hc
  simpa using h c hc

/-- C6 counterexample: the code maps `"ID"` to `"i_d"`, not `"id"` — the
regex inserts `_` before the internal uppercase `D` as well. -/
theorem to_snake_case_ID_eq_i_d :
    to_snake_case "ID" = "i_d" ∧ to_snake_case "ID" ≠ "id" := by decide

/-- C6 (amended): `to_snake_case` removes whitespace, inserts a separator
before each internal uppercase-letter boundary (not before the first
character), then lowercases the whole string; in particular
`to_snake_case "Customer Orders" = "customer_orders"`,
`to_snake_case "ID" = "i_d"` (every internal uppercase letter gets a
separator, so consecutive capitals are split), and
`to_snake_case "already_snake" = "already_snake"`. -/
theorem to_snake_case_examples :
    to_snake_case "Customer Orders" = "customer_orders" ∧
    to_snake_case "ID" = "i_d" ∧
    to_snake_case "already_snake" = "already_snake" := by decide

/-- C7: `to_snake_case` is deterministic (it is a pure function of its
argument) and idempotent: applying it twice gives the same result as
applying it once, for every input string. -/
theorem to_snake_case_idempotent (s : String) :
    to_snake_case (to_snake_case s) = to_snake_case s := by
  have hnu : ∀ c ∈ (insertSeps (removeSpaces s.data)).map lowerChar,
      isUpperAscii c = false := by
    intro c hc
    obtain ⟨d, _, rfl⟩ := List.mem_map.mp hc
    exact isUpperAscii_lowerChar d
  have hns : ∀ c ∈ (insertSeps (removeSpaces s.data)).map lowerChar,
      c ≠ ' ' := by
    intro c hc
    obtain ⟨d, hd, rfl⟩ := List.mem_map.mp hc
    apply lowerChar_ne_space
    rcases mem_insertSeps hd with h | h
    · rw [h]; decide
    · exact fun hsp => by simpa [hsp, removeSpaces] using List.mem_filter.mp h
  show String.mk ((insertSeps (removeSpaces
      ((insertSeps (removeSpaces s.data)).map lowerChar))).map lowerChar) = _
  rw [removeSpaces_eq_self hns, insertSeps_eq_self hnu, map_lowerChar_eq_self hnu]
  rfl

/-! ## Extractor: `get_airtable_data` (migrate.py lines 38–52)

```python
def get_airtable_data(table_name):
    url = f'https://api.airtable.com/v0/{AIRTABLE_BASE_ID}/{table_name}'
    records = []
    offset = None
    while True:
        params = {}
        if offset:
            params['offset'] = offset
        response = requests.get(url, headers=HEADERS, params=params)
        data = response.json()
        records.extend(data['records'])
        if 'offset' not in data:
            break
        offset = data['offset']
    return records
```

The network is modelled by the list of responses the source store gives to
the successive requests: request number k is answered by the k-th list
entry.  The embedding returns, alongside the accumulated records, the
`offset` query parameter each request carried (one list entry per request
issued, in order); it returns `none` when the scripted responses run out
(the Python loop would keep requesting).  Note that `get_airtable_data`
performs no configuration lookup at all: the mapping is never consulted.
-/

/-- One raw Airtable record: the `fields` sub-object of a record. -/
structure RawRecord where
  fields : List (String × Value)
deriving DecidableEq, Repr

/-- One page of the source store's response: the `records` array and the
optional `offset` continuation token (present iff more pages follow). -/
structure PageResponse where
  records : List RawRecord
  offset : Option String
deriving DecidableEq, Repr

/-- The `offset` query parameter a request carries, given the loop's
`offset` variable: Python's `if offset:` is a truthiness test, so both
`None` and the empty string send no parameter. -/
def paramOf : Option String → Option String
  | none => none
  | some c => if c = "" then none else some c

/-- The `while True` pagination loop.  Returns the accumulated records and
the `offset` parameter carried by each request, in request order. -/
def fetchLoop : List PageResponse → Option String →
    Option (List RawRecord × List (Option String))
  | [], _ => none
  | page :: rest, cursor =>
    match page.offset with
    | none => some (page.records, [paramOf cursor])
    | some c =>
      match fetchLoop rest (some c) with
      | none => none
      | some (recs, sents) => some (page.records ++ recs, paramOf cursor :: sents)

/-- `get_airtable_data` from migrate.py.  The table name only selects the
URL; no configuration check happens here. -/
def get_airtable_data (table_name : String) (responses : List PageResponse) :
    Option (List RawRecord × List (Option String)) :=
  fetchLoop responses none

theorem fetchLoop_pages (pages : List PageResponse) (last : PageResponse)
    (cursor : Option String)
    (h1 : ∀ p ∈ pages, p.offset.isSome) (h2 : last.offset = none) :
    fetchLoop (pages ++ [last]) cursor =
      some (((pages ++ [last]).map PageResponse.records).flatten,
        paramOf cursor :: pages.map (fun p => paramOf p.offset)) := by
  induction pages generalizing cursor with
  | nil => simp [fetchLoop, h2]
  | cons p rest ih =>
    obtain ⟨c, hc⟩ := Option.isSome_iff_exists.mp (h1 p (List.mem_cons_self p rest))
    have hrest : ∀ q ∈ rest, q.offset.isSome :=
      fun q hq => h1 q (List.mem_cons_of_mem _ hq)
    simp only [List.cons_append, fetchLoop, hc]
    simp only [List.append_eq]
    rw [ih (some c) hrest]
    simp [hc]

/-- C1: pagination completeness.  First conjunct: for pages `P1` (cursor
`c1`), `P2` (cursor `c2`), `P3` (no cursor), `get_airtable_data` returns
`P1 ++ P2 ++ P3` in that order and issues exactly three requests — the
returned parameter list has one entry per request — with the 2nd and 3rd
requests carrying the cursor returned by the immediately prior page (a
cursor is a non-empty continuation token; Python's `if offset:` would drop
an empty one).  Second conjunct, the general law: whenever every page but
the last carries a cursor and the last does not, the result is the
concatenation of all page batches in request order, and each request after
the first carries the previous page's cursor. -/
theorem get_airtable_data_pagination (table_name : String) :
    (∀ (P1 P2 P3 : List RawRecord) (c1 c2 : String), c1 ≠ "" → c2 ≠ "" →
      get_airtable_data table_name
        [⟨P1, some c1⟩, ⟨P2, some c2⟩, ⟨P3, none⟩] =
        some (P1 ++ P2 ++ P3, [none, some c1, some c2])) ∧
    (∀ (pages : List PageResponse) (last : PageResponse),
      (∀ p ∈ pages, p.offset.isSome) → last.offset = none →
      get_airtable_data table_name (pages ++ [last]) =
        some (((pages ++ [last]).map PageResponse.records).flatten,
          none :: pages.map (fun p => paramOf p.offset))) := by
  constructor
  · intro P1 P2 P3 c1 c2 hc1 hc2
    simp [get_airtable_data, fetchLoop, paramOf, hc1, hc2]
  · intro pages last h1 h2
    exact fetchLoop_pages pages last none h1 h2

/-- Witness for C1 at a concrete three-page exchange. -/
theorem get_airtable_data_pagination_witness :
    get_airtable_data "Orders"
      [⟨[⟨[("Name", Value.str "a")]⟩], some "cur1"⟩,
       ⟨[⟨[("Name", Value.str "b")]⟩], some "cur2"⟩,
       ⟨[⟨[("Name", Value.str "c")]⟩], none⟩] =
      some ([⟨[("Name", Value.str "a")]⟩, ⟨[("Name", Value.str "b")]⟩,
             ⟨[("Name", Value.str "c")]⟩],
        [none, some "cur1", some "cur2"]) :=
  (get_airtable_data_pagination "Orders").1 _ _ _ "cur1" "cur2"
    (by decide) (by decide)

/-! ## Configuration and FieldMapper: `transform_data` (migrate.py lines 55–66)

```python
def transform_data(table_name, records):
    transformed_records = []
    mapping = config['tables'].get(table_name)
    if not mapping:
        raise ValueError(f'Mapping not found for table: {table_name}')

    for record in records:
        transformed = {}
        for airtable_field, postgres_field in mapping.items():
            transformed[postgres_field['name']] = record['fields'].get(airtable_field)
        transformed_records.append(transformed)
    return transformed_records
```
-/

/-- A target column descriptor `{name, type}` from config.yaml. -/
structure PGField where
  name : String
  type : String
deriving DecidableEq, Repr

/-- A table's mapping: ordered source-field → column-descriptor pairs
(a YAML mapping is an insertion-ordered dict). -/
def TableMapping := List (String × PGField)
deriving DecidableEq, Repr

/-- `config['tables']`: table name → TableMapping, insertion-ordered. -/
def Config := List (String × TableMapping)
deriving DecidableEq, Repr

/-- The exceptions migrate.py can raise. -/
inductive PyError where
  /-- `ValueError(message)` — the configuration error. -/
  | valueError : String → PyError
  /-- An exception raised by a database statement. -/
  | dbError : PyError
  /-- An exception raised by the HTTP request layer. -/
  | requestError : PyError
deriving DecidableEq, Repr

/-- First-match association-list lookup: Python `dict.get` (dict keys are
unique, so first match is the match). -/
def alistGet {α : Type} (l : List (String × α)) (k : String) : Option α :=
  match l.find? (fun p => p.1 == k) with
  | some p => some p.2
  | none => none

/-- `config['tables'].get(table_name)` followed by `if not mapping:` —
Python truthiness makes both a missing entry and an empty mapping fail. -/
def getMapping (config : Config) (table_name : String) : Option TableMapping :=
  match alistGet config table_name with
  | none => none
  | some m => if m.isEmpty then none else some m

/-- The `ValueError` message used by all three config checks. -/
def mappingErr (table_name : String) : PyError :=
  PyError.valueError ("Mapping not found for table: " ++ table_name)

/-- `record['fields'].get(airtable_field)`: `None` when the field is
absent (and a stored JSON null is `Value.null` already). -/
def fieldsGet (fields : List (String × Value)) (k : String) : Value :=
  match alistGet fields k with
  | some v => v
  | none => Value.null

/-- `d[k] = v` on an insertion-ordered Python dict: update in place if the
key exists, append otherwise. -/
def dictInsert (d : List (String × Value)) (k : String) (v : Value) :
    List (String × Value) :=
  if d.any (fun p => p.1 == k) then
    d.map (fun p => if p.1 == k then (k, v) else p)
  else d ++ [(k, v)]

/-- The inner `for airtable_field, postgres_field in mapping.items():` loop
building one transformed record. -/
def transformRecord (mapping : TableMapping) (record : RawRecord) :
    List (String × Value) :=
  mapping.foldl
    (fun acc e => dictInsert acc e.2.name (fieldsGet record.fields e.1)) []

/-- `transform_data` from migrate.py. -/
def transform_data (config : Config) (table_name : String)
    (records : List RawRecord) : Except PyError (List (List (String × Value))) :=
  match getMapping config table_name with
  | none => .error (mappingErr table_name)
  | some mapping => .ok (records.map (transformRecord mapping))

/-- The ordered target column list `insert_into_postgres` derives from the
mapping: `[postgres_field['name'] for postgres_field in mapping.values()]`. -/
def insertColumns (mapping : TableMapping) : List String :=
  mapping.map (fun e => e.2.name)


theorem dictInsert_fresh {d : List (String × Value)} {k : String} (v : Value)
    (h : ∀ p ∈ d, p.1 ≠ k) : dictInsert d k v = d ++ [(k, v)] := by
  have hcond : d.any (fun p => p.1 == k) = false := by
    rw [List.any_eq_false]
    intro p hp
    simpa using h p hp
  unfold dictInsert
  rw [hcond]
  simp

theorem transformRecord_fold (mapping : TableMapping) (record : RawRecord)
    (acc : List (String × Value))
    (hnd : (insertColumns mapping).Nodup)
    (hacc : ∀ p ∈ acc, p.1 ∉ insertColumns mapping) :
    mapping.foldl
        (fun acc e => dictInsert acc e.2.name (fieldsGet record.fields e.1))
        acc =
      acc ++ mapping.map (fun e => (e.2.name, fieldsGet record.fields e.1)) := by
  induction mapping generalizing acc with
  | nil => simp
  | cons e rest ih =>
    simp only [insertColumns, List.map_cons, List.nodup_cons] at hnd
    have hfresh : ∀ p ∈ acc, p.1 ≠ e.2.name := by
      intro p hp hk
      exact hacc p hp (by simp [insertColumns, hk])
    have hacc' : ∀ p ∈ acc ++ [(e.2.name, fieldsGet record.fields e.1)],
        p.1 ∉ insertColumns rest := by
      intro p hp
      rcases List.mem_append.mp hp with hp | hp
      · intro hmem
        apply hacc p hp
        simp only [insertColumns, List.map_cons]
        exact List.mem_cons_of_mem _ (by simpa [insertColumns] using hmem)
      · simp only [List.mem_singleton] at hp
        subst hp
        simpa [insertColumns] using hnd.1
    have hnd' : (insertColumns rest).Nodup := by
      simpa [insertColumns] using hnd.2
    simp only [List.foldl_cons]
    rw [dictInsert_fresh _ hfresh]
    rw [ih _ hnd' hacc']
    simp

theorem transformRecord_eq_map (mapping : TableMapping) (record : RawRecord)
    (hnd : (insertColumns mapping).Nodup) :
    transformRecord mapping record =
      mapping.map (fun e => (e.2.name, fieldsGet record.fields e.1)) := by
  unfold transformRecord
  rw [transformRecord_fold mapping record [] hnd (by simp)]
  simp

/-- C2: for a table whose mapping is present (with the spec's TableMapping
invariant that target column names are unique), `transform_data` produces
exactly one transformed record per input record, in input order; each
transformed record has one key per mapping entry, named by the descriptor's
target column name, in the mapping's declared order, and its value is the
record's value for the entry's source field — `Value.null`, never an error,
when the source field is absent (last conjunct). -/
theorem transform_data_spec (config : Config) (table_name : String)
    (mapping : TableMapping) (records : List RawRecord)
    (hm : getMapping config table_name = some mapping)
    (hnd : (insertColumns mapping).Nodup) :
    transform_data config table_name records =
      .ok (records.map (fun r =>
        mapping.map (fun e => (e.2.name, fieldsGet r.fields e.1)))) ∧
    (∀ fields k, alistGet fields k = none → fieldsGet fields k = Value.null) := by
  constructor
  · have hfn : transformRecord mapping = fun r =>
        mapping.map (fun e => (e.2.name, fieldsGet r.fields e.1)) :=
      funext fun r => transformRecord_eq_map mapping r hnd
    simp only [transform_data, hm, hfn]
  · intro fields k hk
    unfold fieldsGet
    rw [hk]

/-- Witness for C2: a mapping with columns `c1`, `c2` and a record missing
`c1`'s source field yields `{c1: null, c2: "v"}`, keys ordered `c1`, `c2`. -/
theorem transform_data_spec_witness :
    transform_data
        [("T", [("A", ⟨"c1", "text"⟩), ("B", ⟨"c2", "text"⟩)])] "T"
        [⟨[("B", Value.str "v")]⟩] =
      .ok [[("c1", Value.null), ("c2", Value.str "v")]] := by
  have h := (transform_data_spec
    [("T", [("A", ⟨"c1", "text"⟩), ("B", ⟨"c2", "text"⟩)])] "T"
    [("A", ⟨"c1", "text"⟩), ("B", ⟨"c2", "text"⟩)]
    [⟨[("B", Value.str "v")]⟩] rfl (by decide)).1
  rw [h]
  rfl

/-- C10: positional-binding alignment.  For every record `transform_data`
produces from a mapping (under the TableMapping invariant of unique target
column names), the record's keys in insertion order are exactly the column
list `insert_into_postgres` derives from the same mapping
(`insertColumns`), so `tuple(record.values())` has one value per target
column and its k-th value is bound to the k-th target column of the INSERT
statement. -/
theorem transform_insert_alignment (config : Config) (table_name : String)
    (mapping : TableMapping) (records : List RawRecord)
    (out : List (List (String × Value))) (r : List (String × Value))
    (hm : getMapping config table_name = some mapping)
    (hnd : (insertColumns mapping).Nodup)
    (hout : transform_data config table_name records = .ok out)
    (hr : r ∈ out) :
    r.map Prod.fst = insertColumns mapping ∧
    r.length = (insertColumns mapping).length ∧
    ∀ k (hk : k < r.length) (hk' : k < (insertColumns mapping).length),
      (r.get ⟨k, hk⟩).1 = (insertColumns mapping).get ⟨k, hk'⟩ := by
  unfold transform_data at hout
  rw [hm] at hout
  injection hout with hout
  subst hout
  obtain ⟨raw, _, rfl⟩ := List.mem_map.mp hr
  rw [transformRecord_eq_map mapping raw hnd]
  refine ⟨by simp [insertColumns], by simp [insertColumns], ?_⟩
  intro k hk hk'
  simp [insertColumns]

/-- Witness for C10 at a concrete mapping and record. -/
theorem transform_insert_alignment_witness :
    (([("c1", Value.null), ("c2", Value.str "v")] : List (String × Value)).map
        Prod.fst =
      insertColumns [("A", ⟨"c1", "text"⟩), ("B", ⟨"c2", "text"⟩)]) := by
  have h := transform_insert_alignment
    [("T", [("A", ⟨"c1", "text"⟩), ("B", ⟨"c2", "text"⟩)])] "T"
    [("A", ⟨"c1", "text"⟩), ("B", ⟨"c2", "text"⟩)]
    [⟨[("B", Value.str "v")]⟩]
    [[("c1", Value.null), ("c2", Value.str "v")]]
    [("c1", Value.null), ("c2", Value.str "v")]
    rfl (by decide) rfl (by decide)
  exact h.1

/-! ## SchemaManager and Loader: the target database

The target store is an explicit state: a flag for the `uuid-ossp`
extension and a name-indexed collection of tables, each a column list
(the DDL column clauses, in order) and a row list (each row the tuple of
values bound by one INSERT, in insertion order; the synthetic `id` column
is filled by the store's DEFAULT expression and carries no bound value).
Every database operation of migrate.py opens a fresh connection, executes
its statements against a working copy, and either commits (publishing the
working copy) or rolls back (discarding it) — the embedding threads the
committed state and returns the optional exception alongside the new
committed state. -/

/-- One target-store table: DDL column clauses and inserted rows. -/
structure Table where
  cols : List String
  rows : List (List Value)
deriving DecidableEq, Repr

/-- The target store: extension flag plus named tables. -/
structure DB where
  ext : Bool
  tables : List (String × Table)
deriving DecidableEq, Repr

/-- Whether a table of this name exists. -/
def hasTable (ts : List (String × Table)) (name : String) : Bool :=
  ts.any (fun p => p.1 == name)

/-- Look a table up by name. -/
def lookupTable (ts : List (String × Table)) (name : String) : Option Table :=
  alistGet ts name

/-- Replace the table of the given name (used by INSERT). -/
def updateTable (ts : List (String × Table)) (name : String) (t : Table) :
    List (String × Table) :=
  ts.map (fun p => if p.1 == name then (name, t) else p)

/-- `DROP TABLE IF EXISTS name`. -/
def execDrop (ts : List (String × Table)) (name : String) :
    List (String × Table) :=
  ts.filter (fun p => p.1 != name)

/-- `CREATE TABLE name (cols)` — an error if the table already exists. -/
def execCreate (ts : List (String × Table)) (name : String)
    (cols : List String) : Except Unit (List (String × Table)) :=
  if hasTable ts name then .error () else .ok (ts ++ [(name, ⟨cols, []⟩)])

/-- `CREATE TABLE IF NOT EXISTS name (cols)` — a no-op if it exists. -/
def execCreateIfNotExists (ts : List (String × Table)) (name : String)
    (cols : List String) : List (String × Table) :=
  if hasTable ts name then ts else ts ++ [(name, ⟨cols, []⟩)]

/-- One `cur.execute(insert_query, vals)`: appends the bound tuple as a row.
`insertFails` is the store's verdict on the single-row INSERT (type
mismatch, constraint violation, …); inserting into a missing table is
always an error. -/
def execInsert (insertFails : List Value → Bool) (ts : List (String × Table))
    (name : String) (vals : List Value) :
    Except Unit (List (String × Table)) :=
  match lookupTable ts name with
  | none => .error ()
  | some t =>
    if insertFails vals then .error ()
    else .ok (updateTable ts name ⟨t.cols, t.rows ++ [vals]⟩)

/-- The `for record in records: cur.execute(insert_query, ...)` loop. -/
def insertAll (insertFails : List Value → Bool) (name : String) :
    List (List Value) → List (String × Table) →
    Except Unit (List (String × Table))
  | [], ts => .ok ts
  | vals :: rest, ts =>
    match execInsert insertFails ts name vals with
    | .error _ => .error ()
    | .ok ts' => insertAll insertFails name rest ts'

/-- The column clauses `insert_into_postgres` builds for the recreated
table: `f"{postgres_field['name']} {postgres_field['type']}"` per entry. -/
def createColumns (mapping : TableMapping) : List String :=
  mapping.map (fun e => e.2.name ++ " " ++ e.2.type)

/-- `tuple(record.values())`. -/
def recordValues (record : List (String × Value)) : List Value :=
  record.map (fun p => p.2)

/-- `create_table_if_not_exists` from migrate.py (lines 69–89): config
check, then `CREATE EXTENSION IF NOT EXISTS "uuid-ossp"` and
`CREATE TABLE IF NOT EXISTS`, committed together.  Both statements are
store-idempotent, so no failing path remains in the model. -/
def create_table_if_not_exists (config : Config) (table_name : String)
    (db : DB) : Option PyError × DB :=
  match getMapping config table_name with
  | none => (some (mappingErr table_name), db)
  | some mapping =>
    let ts := execCreateIfNotExists db.tables (to_snake_case table_name)
      ("id UUID PRIMARY KEY DEFAULT uuid_generate_v4()" :: createColumns mapping)
    (none, ⟨true, ts⟩)

/-- `insert_into_postgres` from migrate.py (lines 92–128): config check,
then — inside one transaction — optionally `DROP TABLE IF EXISTS` and
`CREATE TABLE`, then one INSERT per record; commit at the end, roll the
whole transaction back and re-raise on any statement failure. -/
def insert_into_postgres (insertFails : List Value → Bool) (config : Config)
    (table_name : String) (records : List (List (String × Value)))
    (drop_table_before_insert : Bool) (db : DB) : Option PyError × DB :=
  match getMapping config table_name with
  | none => (some (mappingErr table_name), db)
  | some mapping =>
    let snake := to_snake_case table_name
    let working : Except Unit (List (String × Table)) :=
      if drop_table_before_insert then
        execCreate (execDrop db.tables snake) snake
          ("id UUID PRIMARY KEY DEFAULT gen_random_uuid()" :: createColumns mapping)
      else .ok db.tables
    match (match working with
           | .error u => .error u
           | .ok ts => insertAll insertFails snake (records.map recordValues) ts :
           Except Unit (List (String × Table))) with
    | .error _ => (some PyError.dbError, db)
    | .ok ts => (none, ⟨db.ext, ts⟩)

theorem hasTable_execDrop_self (ts : List (String × Table)) (name : String) :
    hasTable (execDrop ts name) name = false := by
  induction ts with
  | nil => rfl
  | cons p rest ih =>
    by_cases hp : p.1 = name
    · simp [execDrop, hasTable, hp, ih]
    · simp [execDrop, hasTable, hp, ih]

theorem lookupTable_append_self (ts : List (String × Table)) (name : String)
    (t : Table) (h : hasTable ts name = false) :
    lookupTable (ts ++ [(name, t)]) name = some t := by
  induction ts with
  | nil => simp [lookupTable, alistGet, List.find?]
  | cons p rest ih =>
    simp only [hasTable, List.any_cons, Bool.or_eq_false_iff] at h
    simp only [List.cons_append, lookupTable, alistGet, List.find?, h.1]
    exact ih h.2

theorem updateTable_append_self (ts : List (String × Table)) (name : String)
    (t t2 : Table) (h : hasTable ts name = false) :
    updateTable (ts ++ [(name, t)]) name t2 = ts ++ [(name, t2)] := by
  induction ts with
  | nil => simp [updateTable]
  | cons p rest ih =>
    simp only [hasTable, List.any_cons, Bool.or_eq_false_iff] at h
    simp only [List.cons_append, updateTable, List.map_cons]
    rw [if_neg (by simpa using h.1)]
    simp only [updateTable] at ih
    rw [ih h.2]

theorem insertAll_after_create (insertFails : List Value → Bool) (name : String)
    (valsList : List (List Value)) (ts0 : List (String × Table))
    (cols : List String) (rows : List (List Value))
    (hno : hasTable ts0 name = false)
    (hok : ∀ v ∈ valsList, insertFails v = false) :
    insertAll insertFails name valsList (ts0 ++ [(name, ⟨cols, rows⟩)]) =
      .ok (ts0 ++ [(name, ⟨cols, rows ++ valsList⟩)]) := by
  induction valsList generalizing rows with
  | nil => simp [insertAll]
  | cons v rest ih =>
    have hv : insertFails v = false := hok v (List.mem_cons_self v rest)
    simp only [insertAll, execInsert, lookupTable_append_self ts0 name _ hno, hv,
      Bool.false_eq_true, if_false]
    rw [updateTable_append_self ts0 name _ _ hno]
    rw [ih (rows ++ [v]) (fun w hw => hok w (List.mem_cons_of_mem _ hw))]
    simp

theorem insertAll_hits_failure (insertFails : List Value → Bool) (name : String)
    (valsList : List (List Value)) (ts0 : List (String × Table))
    (cols : List String) (rows : List (List Value))
    (hno : hasTable ts0 name = false)
    (hbad : ∃ v ∈ valsList, insertFails v = true) :
    insertAll insertFails name valsList (ts0 ++ [(name, ⟨cols, rows⟩)]) =
      .error () := by
  induction valsList generalizing rows with
  | nil => simp at hbad
  | cons v rest ih =>
    by_cases hv : insertFails v = true
    · simp [insertAll, execInsert, lookupTable_append_self ts0 name _ hno, hv]
    · have hv' : insertFails v = false := by simpa using hv
      simp only [insertAll, execInsert, lookupTable_append_self ts0 name _ hno,
        hv', Bool.false_eq_true, if_false]
      rw [updateTable_append_self ts0 name _ _ hno]
      apply ih (rows ++ [v])
      obtain ⟨w, hw, hwf⟩ := hbad
      rcases List.mem_cons.mp hw with hw | hw
      · subst hw
        exact absurd hwf hv
      · exact ⟨w, hw, hwf⟩

theorem insert_drop_success (insertFails : List Value → Bool) (config : Config)
    (table_name : String) (mapping : TableMapping)
    (records : List (List (String × Value))) (db : DB)
    (hm : getMapping config table_name = some mapping)
    (hok : ∀ r ∈ records, insertFails (recordValues r) = false) :
    insert_into_postgres insertFails config table_name records true db =
      (none, ⟨db.ext, execDrop db.tables (to_snake_case table_name) ++
        [(to_snake_case table_name,
          ⟨"id UUID PRIMARY KEY DEFAULT gen_random_uuid()" ::
            createColumns mapping, records.map recordValues⟩)]⟩) := by
  have hok' : ∀ v ∈ records.map recordValues, insertFails v = false := by
    intro v hv
    obtain ⟨r, hr, rfl⟩ := List.mem_map.mp hv
    exact hok r hr
  have hcr : execCreate (execDrop db.tables (to_snake_case table_name))
      (to_snake_case table_name)
      ("id UUID PRIMARY KEY DEFAULT gen_random_uuid()" ::
        createColumns mapping) =
      .ok (execDrop db.tables (to_snake_case table_name) ++
        [(to_snake_case table_name,
          ⟨"id UUID PRIMARY KEY DEFAULT gen_random_uuid()" ::
            createColumns mapping, []⟩)]) := by
    unfold execCreate
    rw [hasTable_execDrop_self]
    simp
  have hins := insertAll_after_create insertFails (to_snake_case table_name)
    (records.map recordValues) (execDrop db.tables (to_snake_case table_name))
    ("id UUID PRIMARY KEY DEFAULT gen_random_uuid()" :: createColumns mapping)
    [] (hasTable_execDrop_self db.tables (to_snake_case table_name)) hok'
  simp only [insert_into_postgres, hm, if_true, hcr, hins, List.nil_append]

theorem insert_drop_failure (insertFails : List Value → Bool) (config : Config)
    (table_name : String) (mapping : TableMapping)
    (records : List (List (String × Value))) (db : DB)
    (hm : getMapping config table_name = some mapping)
    (hbad : ∃ r ∈ records, insertFails (recordValues r) = true) :
    insert_into_postgres insertFails config table_name records true db =
      (some PyError.dbError, db) := by
  have hbad' : ∃ v ∈ records.map recordValues, insertFails v = true := by
    obtain ⟨r, hr, hf⟩ := hbad
    exact ⟨recordValues r, List.mem_map_of_mem _ hr, hf⟩
  have hcr : execCreate (execDrop db.tables (to_snake_case table_name))
      (to_snake_case table_name)
      ("id UUID PRIMARY KEY DEFAULT gen_random_uuid()" ::
        createColumns mapping) =
      .ok (execDrop db.tables (to_snake_case table_name) ++
        [(to_snake_case table_name,
          ⟨"id UUID PRIMARY KEY DEFAULT gen_random_uuid()" ::
            createColumns mapping, []⟩)]) := by
    unfold execCreate
    rw [hasTable_execDrop_self]
    simp
  have hins := insertAll_hits_failure insertFails (to_snake_case table_name)
    (records.map recordValues) (execDrop db.tables (to_snake_case table_name))
    ("id UUID PRIMARY KEY DEFAULT gen_random_uuid()" :: createColumns mapping)
    [] (hasTable_execDrop_self db.tables (to_snake_case table_name)) hbad'
  simp only [insert_into_postgres, hm, if_true, hcr, hins]

theorem insert_err_rollback (insertFails : List Value → Bool) (config : Config)
    (table_name : String) (records : List (List (String × Value)))
    (flag : Bool) (db db2 : DB) (e : PyError)
    (h : insert_into_postgres insertFails config table_name records flag db =
      (some e, db2)) :
    db2 = db := by
  unfold insert_into_postgres at h
  cases hg : getMapping config table_name with
  | none =>
    rw [hg] at h
    injection h with h1 h2
    exact h2.symm
  | some mapping =>
    rw [hg] at h
    simp only [] at h
    split at h
    · injection h with h1 h2
      exact h2.symm
    · injection h with h1 h2
      simp at h1

/-- C3: `insert_into_postgres` is atomic per table.  (i) Whenever the call
returns with an exception — any mode, any failure — the committed database
is unchanged: the table contains none of the records attempted in that
call.  (ii) If inserting any single record fails, the call fails (with the
re-raised insert exception, `PyError.dbError`) and rolls the transaction
back.  (iii) It commits exactly once, only after every insert succeeded,
publishing all inserted rows together. -/
theorem insert_into_postgres_atomic (insertFails : List Value → Bool)
    (config : Config) (table_name : String) (mapping : TableMapping)
    (records : List (List (String × Value))) (db : DB)
    (hm : getMapping config table_name = some mapping) :
    (∀ (flag : Bool) (e : PyError) (db2 : DB),
      insert_into_postgres insertFails config table_name records flag db =
        (some e, db2) → db2 = db) ∧
    ((∃ r ∈ records, insertFails (recordValues r) = true) →
      insert_into_postgres insertFails config table_name records true db =
        (some PyError.dbError, db)) ∧
    ((∀ r ∈ records, insertFails (recordValues r) = false) →
      insert_into_postgres insertFails config table_name records true db =
        (none, ⟨db.ext, execDrop db.tables (to_snake_case table_name) ++
          [(to_snake_case table_name,
            ⟨"id UUID PRIMARY KEY DEFAULT gen_random_uuid()" ::
              createColumns mapping, records.map recordValues⟩)]⟩)) :=
  ⟨fun flag e db2 h =>
      insert_err_rollback insertFails config table_name records flag db db2 e h,
   fun hbad =>
      insert_drop_failure insertFails config table_name mapping records db hm hbad,
   fun hok =>
      insert_drop_success insertFails config table_name mapping records db hm hok⟩

/-- Witness for C3: records `[A, B, Bad]` where inserting `Bad` fails; the
call returns the insert error and the committed database is unchanged, so
the (initially empty) table contains zero of `A`, `B`, `Bad`. -/
theorem insert_into_postgres_atomic_witness :
    insert_into_postgres (fun v => decide (v = [Value.str "bad"]))
        [("T", [("A", ⟨"c1", "text"⟩)])] "T"
        [[("c1", Value.str "a")], [("c1", Value.str "b")],
         [("c1", Value.str "bad")]] true ⟨true, [("t", ⟨["c1 text"], []⟩)]⟩ =
      (some PyError.dbError, ⟨true, [("t", ⟨["c1 text"], []⟩)]⟩) :=
  (insert_into_postgres_atomic (fun v => decide (v = [Value.str "bad"]))
    [("T", [("A", ⟨"c1", "text"⟩)])] "T" [("A", ⟨"c1", "text"⟩)]
    [[("c1", Value.str "a")], [("c1", Value.str "b")],
     [("c1", Value.str "bad")]] ⟨true, [("t", ⟨["c1 text"], []⟩)]⟩
    rfl).2.1 ⟨[("c1", Value.str "bad")], by decide, by decide⟩

theorem execDrop_idem (ts : List (String × Table)) (name : String) :
    execDrop (execDrop ts name) name = execDrop ts name := by
  simp [execDrop, List.filter_filter]

theorem execDrop_append (ts1 ts2 : List (String × Table)) (name : String) :
    execDrop (ts1 ++ ts2) name = execDrop ts1 name ++ execDrop ts2 name := by
  simp [execDrop]

theorem execDrop_singleton_self (name : String) (t : Table) :
    execDrop [(name, t)] name = [] := by
  simp [execDrop]

/-- C4: `DropAndRecreate` load is a destructive full replace.  Loading
`[A, B]` and then `[C]` for the same table leaves the table containing
exactly `C`'s row (plus the synthetic `id` primary-key column clause at the
head of the column list), not `[A, B, C]` (third conjunct).  The drop,
recreate, and inserts run in one transaction of one load call: if the
insert of `C` fails (last conjunct, with a store that rejects every
insert), the whole second call rolls back and the table still holds
`[A, B]` — the already-executed drop and recreate are discarded too. -/
theorem insert_drop_and_recreate_replaces (insertFails : List Value → Bool)
    (config : Config) (table_name : String) (mapping : TableMapping)
    (A B C : List (String × Value)) (db : DB)
    (hm : getMapping config table_name = some mapping)
    (hA : insertFails (recordValues A) = false)
    (hB : insertFails (recordValues B) = false)
    (hC : insertFails (recordValues C) = false) :
    insert_into_postgres insertFails config table_name [A, B] true db =
      (none, ⟨db.ext, execDrop db.tables (to_snake_case table_name) ++
        [(to_snake_case table_name,
          ⟨"id UUID PRIMARY KEY DEFAULT gen_random_uuid()" ::
            createColumns mapping, [recordValues A, recordValues B]⟩)]⟩) ∧
    insert_into_postgres insertFails config table_name [C] true
        ⟨db.ext, execDrop db.tables (to_snake_case table_name) ++
          [(to_snake_case table_name,
            ⟨"id UUID PRIMARY KEY DEFAULT gen_random_uuid()" ::
              createColumns mapping, [recordValues A, recordValues B]⟩)]⟩ =
      (none, ⟨db.ext, execDrop db.tables (to_snake_case table_name) ++
        [(to_snake_case table_name,
          ⟨"id UUID PRIMARY KEY DEFAULT gen_random_uuid()" ::
            createColumns mapping, [recordValues C]⟩)]⟩) ∧
    lookupTable (execDrop db.tables (to_snake_case table_name) ++
        [(to_snake_case table_name,
          ⟨"id UUID PRIMARY KEY DEFAULT gen_random_uuid()" ::
            createColumns mapping, [recordValues C]⟩)])
        (to_snake_case table_name) =
      some ⟨"id UUID PRIMARY KEY DEFAULT gen_random_uuid()" ::
        createColumns mapping, [recordValues C]⟩ ∧
    insert_into_postgres (fun _ => true) config table_name [C] true
        ⟨db.ext, execDrop db.tables (to_snake_case table_name) ++
          [(to_snake_case table_name,
            ⟨"id UUID PRIMARY KEY DEFAULT gen_random_uuid()" ::
              createColumns mapping, [recordValues A, recordValues B]⟩)]⟩ =
      (some PyError.dbError,
        ⟨db.ext, execDrop db.tables (to_snake_case table_name) ++
          [(to_snake_case table_name,
            ⟨"id UUID PRIMARY KEY DEFAULT gen_random_uuid()" ::
              createColumns mapping, [recordValues A, recordValues B]⟩)]⟩) := by
  refine ⟨?_, ?_, ?_, ?_⟩
  · have h := insert_drop_success insertFails config table_name mapping [A, B]
      db hm ?_
    · simpa using h
    · intro r hr
      rcases List.mem_cons.mp hr with hr | hr
      · subst hr; exact hA
      · rcases List.mem_cons.mp hr with hr | hr
        · subst hr; exact hB
        · simp at hr
  · have h := insert_drop_success insertFails config table_name mapping [C]
      (DB.mk db.ext (execDrop db.tables (to_snake_case table_name) ++
        [(to_snake_case table_name,
          ⟨"id UUID PRIMARY KEY DEFAULT gen_random_uuid()" ::
            createColumns mapping, [recordValues A, recordValues B]⟩)]))
      hm ?_
    · rw [h]
      simp only [execDrop_append, execDrop_idem, execDrop_singleton_self,
        List.append_nil, List.map_cons, List.map_nil]
    · intro r hr
      rcases List.mem_cons.mp hr with hr | hr
      · subst hr; exact hC
      · simp at hr
  · exact lookupTable_append_self _ _ _
      (hasTable_execDrop_self db.tables (to_snake_case table_name))
  · have h := insert_drop_failure (fun _ => true) config table_name mapping [C]
      (DB.mk db.ext (execDrop db.tables (to_snake_case table_name) ++
        [(to_snake_case table_name,
          ⟨"id UUID PRIMARY KEY DEFAULT gen_random_uuid()" ::
            createColumns mapping, [recordValues A, recordValues B]⟩)]))
      hm ⟨C, List.mem_cons_self C [], rfl⟩
    exact h

/-- Witness for C4 at a concrete table and three concrete records. -/
theorem insert_drop_and_recreate_replaces_witness :
    insert_into_postgres (fun _ => false)
        [("T", [("A", ⟨"c1", "text"⟩)])] "T" [[("c1", Value.str "c")]] true
        ⟨true, [("t", ⟨["id UUID PRIMARY KEY DEFAULT gen_random_uuid()",
          "c1 text"], [[Value.str "a"], [Value.str "b"]]⟩)]⟩ =
      (none, ⟨true, [("t", ⟨["id UUID PRIMARY KEY DEFAULT gen_random_uuid()",
        "c1 text"], [[Value.str "c"]]⟩)]⟩) := by
  have h := (insert_drop_and_recreate_replaces (fun _ => false)
    [("T", [("A", ⟨"c1", "text"⟩)])] "T" [("A", ⟨"c1", "text"⟩)]
    [("c1", Value.str "a")] [("c1", Value.str "b")] [("c1", Value.str "c")]
    ⟨true, []⟩ rfl rfl rfl rfl).2.1
  simpa using h

theorem hasTable_execCreateIfNotExists_self (ts : List (String × Table))
    (name : String) (cols : List String) :
    hasTable (execCreateIfNotExists ts name cols) name = true := by
  unfold execCreateIfNotExists
  by_cases h : hasTable ts name
  · simp [h]
  · rw [if_neg h]
    simp [hasTable]

theorem execCreateIfNotExists_idem (ts : List (String × Table))
    (name : String) (cols : List String) :
    execCreateIfNotExists (execCreateIfNotExists ts name cols) name cols =
      execCreateIfNotExists ts name cols := by
  conv_lhs => rw [execCreateIfNotExists]
  rw [hasTable_execCreateIfNotExists_self]
  simp

/-- C8: `create_table_if_not_exists` is idempotent at the schema level.
For a configured table, one call succeeds (no error), and calling it again
on the resulting state succeeds and leaves the schema state exactly
unchanged — `CREATE EXTENSION IF NOT EXISTS` and
`CREATE TABLE IF NOT EXISTS` are both no-ops the second time. -/
theorem create_table_if_not_exists_idempotent (config : Config)
    (table_name : String) (mapping : TableMapping) (db : DB)
    (hm : getMapping config table_name = some mapping) :
    (create_table_if_not_exists config table_name db).1 = none ∧
    create_table_if_not_exists config table_name
        (create_table_if_not_exists config table_name db).2 =
      (none, (create_table_if_not_exists config table_name db).2) := by
  simp only [create_table_if_not_exists, hm]
  exact ⟨trivial, by simp [execCreateIfNotExists_idem]⟩

/-- Witness for C8 at a concrete configuration and empty database. -/
theorem create_table_if_not_exists_idempotent_witness :
    (create_table_if_not_exists [("T", [("A", ⟨"c1", "text"⟩)])] "T"
      ⟨false, []⟩).1 = none ∧
    create_table_if_not_exists [("T", [("A", ⟨"c1", "text"⟩)])] "T"
        (create_table_if_not_exists [("T", [("A", ⟨"c1", "text"⟩)])] "T"
          ⟨false, []⟩).2 =
      (none, (create_table_if_not_exists [("T", [("A", ⟨"c1", "text"⟩)])] "T"
        ⟨false, []⟩).2) :=
  create_table_if_not_exists_idempotent [("T", [("A", ⟨"c1", "text"⟩)])] "T"
    [("A", ⟨"c1", "text"⟩)] ⟨false, []⟩ rfl

/-- C5 counterexample: the extract step performs no configuration check.
With an empty configuration (so the table `"Orders"` has no mapping),
`get_airtable_data "Orders"` still issues a network request — the returned
parameter list records one request — and returns the page's records
instead of failing with the ConfigurationError.  This refutes the claim
that *every* pipeline step fails with `ConfigurationError` before any
network call for an unconfigured table name. -/
theorem extract_skips_config_check :
    getMapping [] "Orders" = none ∧
    get_airtable_data "Orders" [⟨[⟨[("F", Value.str "x")]⟩], none⟩] =
      some ([⟨[("F", Value.str "x")]⟩], [none]) :=
  ⟨rfl, rfl⟩

/-- C5 (amended): for a table name absent from the configuration, the
transform, schema-ensure, and load steps each fail with the
`ValueError('Mapping not found for table: ...')` configuration error
before touching the database (the returned state is the input state); the
extract step (`get_airtable_data`) performs no configuration check at all
and issues its network requests regardless (see the counterexample). -/
theorem config_error_before_io (config : Config) (table_name : String)
    (records : List RawRecord) (trecords : List (List (String × Value)))
    (insertFails : List Value → Bool) (flag : Bool) (db : DB)
    (hm : getMapping config table_name = none) :
    transform_data config table_name records =
      .error (mappingErr table_name) ∧
    create_table_if_not_exists config table_name db =
      (some (mappingErr table_name), db) ∧
    insert_into_postgres insertFails config table_name trecords flag db =
      (some (mappingErr table_name), db) := by
  refine ⟨?_, ?_, ?_⟩
  · simp [transform_data, hm]
  · simp [create_table_if_not_exists, hm]
  · simp [insert_into_postgres, hm]

/-- Witness for the amended C5 at a concrete unconfigured table name. -/
theorem config_error_before_io_witness :
    transform_data [("Known", [("A", ⟨"c1", "text"⟩)])] "Orders" [] =
      .error (mappingErr "Orders") ∧
    create_table_if_not_exists [("Known", [("A", ⟨"c1", "text"⟩)])] "Orders"
        ⟨false, []⟩ =
      (some (mappingErr "Orders"), ⟨false, []⟩) ∧
    insert_into_postgres (fun _ => false)
        [("Known", [("A", ⟨"c1", "text"⟩)])] "Orders" [] true ⟨false, []⟩ =
      (some (mappingErr "Orders"), ⟨false, []⟩) :=
  config_error_before_io [("Known", [("A", ⟨"c1", "text"⟩)])] "Orders" [] []
    (fun _ => false) true ⟨false, []⟩ rfl

/-! ## MigrationOrchestrator: `migrate` (migrate.py lines 131–139)

```python
def migrate():
    for table_name in config['tables'].keys():
        create_table_if_not_exists(table_name)
        records = get_airtable_data(table_name)
        transformed_records = transform_data(table_name, records)
        insert_into_postgres(table_name, transformed_records, True)
```

The loop body re-raises any exception of any step, aborting the `for` loop
— Python has no handler here.  The embedding makes each step's exception
an early return of the table's processing, and a table's exception an
early return of the loop.  `responses` scripts the source store per table
name. -/

/-- One iteration of the migration loop: schema ensure, extract, transform,
load (in `DropAndRecreate` mode, `drop_table_before_insert=True`); the
first exception aborts the iteration. -/
def migrateTable (insertFails : List Value → Bool) (config : Config)
    (responses : String → List PageResponse) (table_name : String)
    (db : DB) : Option PyError × DB :=
  match create_table_if_not_exists config table_name db with
  | (some e, db1) => (some e, db1)
  | (none, db1) =>
    match get_airtable_data table_name (responses table_name) with
    | none => (some PyError.requestError, db1)
    | some (records, _) =>
      match transform_data config table_name records with
      | .error e => (some e, db1)
      | .ok trs => insert_into_postgres insertFails config table_name trs true db1

/-- The `for` loop over table names: stops at the first table whose
processing raises, re-raising that exception. -/
def migrateTables (insertFails : List Value → Bool) (config : Config)
    (responses : String → List PageResponse) :
    List String → DB → Option PyError × DB
  | [], db => (none, db)
  | tn :: rest, db =>
    match migrateTable insertFails config responses tn db with
    | (some e, db1) => (some e, db1)
    | (none, db1) => migrateTables insertFails config responses rest db1

/-- `migrate` from migrate.py: iterate over `config['tables'].keys()` in
declared order. -/
def migrate (insertFails : List Value → Bool) (config : Config)
    (responses : String → List PageResponse) (db : DB) :
    Option PyError × DB :=
  migrateTables insertFails config responses (config.map (fun p => p.1)) db

theorem migrateTables_first_failure (insertFails : List Value → Bool)
    (config : Config) (responses : String → List PageResponse)
    (pre post : List String) (badT : String) (db db1 db2 : DB) (e : PyError)
    (hpre : migrateTables insertFails config responses pre db = (none, db1))
    (hbad : migrateTable insertFails config responses badT db1 = (some e, db2)) :
    migrateTables insertFails config responses (pre ++ badT :: post) db =
      (some e, db2) := by
  induction pre generalizing db with
  | nil =>
    simp only [migrateTables] at hpre
    injection hpre with h1 h2
    subst h2
    simp only [List.nil_append, migrateTables, hbad]
  | cons t rest ih =>
    rcases hstep : migrateTable insertFails config responses t db with ⟨oe, db'⟩
    simp only [migrateTables, hstep] at hpre
    simp only [List.cons_append, migrateTables, hstep]
    cases oe with
    | some e' => simp at hpre
    | none =>
      simp only [] at hpre
      exact ih db' hpre

/-- C9: a failure in any step while migrating one table propagates out of
the whole run.  If the tables before `badT` in the configuration's declared
order all succeed and some step of `badT` raises `e`, then `migrate`
returns that same exception (re-raised, not swallowed) with the state
produced up to the failure, and the result does not depend on the tables
after `badT` — no subsequent table is processed. -/
theorem migrate_aborts_on_first_failure (insertFails : List Value → Bool)
    (responses : String → List PageResponse)
    (preC postC : List (String × TableMapping)) (badT : String)
    (bm : TableMapping) (db db1 db2 : DB) (e : PyError)
    (hpre : migrateTables insertFails (preC ++ (badT, bm) :: postC) responses
      (preC.map (fun p => p.1)) db = (none, db1))
    (hbad : migrateTable insertFails (preC ++ (badT, bm) :: postC) responses
      badT db1 = (some e, db2)) :
    migrate insertFails (preC ++ (badT, bm) :: postC) responses db =
      (some e, db2) := by
  unfold migrate
  have hkeys : (preC ++ (badT, bm) :: postC).map (fun p => p.1) =
      preC.map (fun p => p.1) ++ badT :: postC.map (fun p => p.1) := by simp
  rw [hkeys]
  exact migrateTables_first_failure insertFails (preC ++ (badT, bm) :: postC)
    responses (preC.map (fun p => p.1)) (postC.map (fun p => p.1)) badT
    db db1 db2 e hpre hbad

/-- Witness for C9: two configured tables; the first one's extraction fails
(the scripted source returns no responses), and the run aborts with that
error after the first table's schema step, never touching table `"B"`. -/
theorem migrate_aborts_on_first_failure_witness :
    migrate (fun _ => false)
        [("A", [("f", ⟨"f", "text"⟩)]), ("B", [("g", ⟨"g", "text"⟩)])]
        (fun _ => []) ⟨false, []⟩ =
      (some PyError.requestError,
        ⟨true, [("a", ⟨["id UUID PRIMARY KEY DEFAULT uuid_generate_v4()",
          "f text"], []⟩)]⟩) :=
  migrate_aborts_on_first_failure (fun _ => false) (fun _ => [])
    [] [("B", [("g", ⟨"g", "text"⟩)])] "A" [("f", ⟨"f", "text"⟩)]
    ⟨false, []⟩ ⟨false, []⟩
    ⟨true, [("a", ⟨["id UUID PRIMARY KEY DEFAULT uuid_generate_v4()",
      "f text"], []⟩)]⟩
    PyError.requestError rfl rfl
